import Mathlib

/-!
# go-echo: a verification development of `main.go`

`main.go` is a small HTTP server written against the echo v4 framework.  The
file defines one middleware (`serverHeader`), four handlers (`handler`,
`helloPathHandler`, `userCreateHandler`, `userModifyHandler`) and `main`, which
registers them on an echo instance.

The embedding is shallow and uses explicit state passing.  A Go handler
`func(c echo.Context) error` mutates the context it is given and returns an
error value; here it is a function from the context to the context after the
call, paired with the returned error (`none` is Go's `nil`).

The functions of `main.go` are translated line by line.  The operations of the
framework they call (`c.String`, `c.JSON`, `c.Bind`, `Response.Before`,
`Response.WriteHeader`, `Group`, `Use`, the router and `ServeHTTP`) are not part
of `main.go`; they are modelled after the echo v4 library and, for the write of
the body, the response writer of `net/http` below it, and every such definition
says so in its doc comment.
-/

set_option autoImplicit false

namespace GoEcho

/-! ## Data model -/

/-- The request methods of `net/http`, and `RouteNotFound`, the name under
which echo registers a handler for the paths no route of the request method
matches (`echo.RouteNotFound`). -/
inductive Method where
  | GET | HEAD | POST | PUT | PATCH | DELETE | CONNECT | OPTIONS | TRACE
  | RouteNotFound
deriving DecidableEq, Repr

/-- The `User` struct of `main.go` (lines 59-62): the JSON members `name` and
`email`. -/
structure User where
  Name : String
  Email : String
deriving DecidableEq, Repr

/-- The echo type `*echo.HTTPError`, reduced to the two fields `main.go` sets
through `echo.NewHTTPError(code, message)`. -/
structure HTTPError where
  Code : Nat
  Message : String
deriving DecidableEq, Repr

/-- A non-nil Go `error`: either an `*echo.HTTPError` or any other error, of
which only the text is kept. -/
inductive GoError where
  | http (e : HTTPError)
  | other (text : String)
deriving DecidableEq, Repr

/-- What one call of a response-writing primitive hands to the response writer:
`c.String` a text, `c.JSON` a JSON object, given here by its members in order
(every object `main.go` and the error handler write has string members only).
The `Content-Type` header that goes with it is represented by the constructor. -/
inductive Payload where
  | text (s : String)
  | json (members : List (String × String))
deriving DecidableEq, Repr

/-- Response headers, `http.Header`: a key with the list of its values. -/
structure Header where
  entries : List (String × List String)
deriving DecidableEq, Repr

/-- The function `http.Header.Set`: the values of `key` are replaced by the
single value `value`. -/
def Header.Set (h : Header) (key value : String) : Header :=
  ⟨(key, [value]) :: h.entries.filter (fun e => e.1 != key)⟩

/-- The function `http.Header.Add`: `value` is appended to the values of `key`. -/
def Header.Add (h : Header) (key value : String) : Header :=
  match h.entries.lookup key with
  | some vs => ⟨(key, vs ++ [value]) :: h.entries.filter (fun e => e.1 != key)⟩
  | none => ⟨h.entries ++ [(key, [value])]⟩

/-- The function `http.Header.Values`: all values of `key`, none when absent. -/
def Header.Values (h : Header) (key : String) : List String :=
  match h.entries.lookup key with
  | some vs => vs
  | none => []

/-- A function registered with `Response.Before`.  The only closure `main.go`
registers is `func() { c.Response().Header().Set(key, value) }` (lines 18-21),
so a registered function is given by the key and the value it sets. -/
structure BeforeFunc where
  key : String
  value : String
deriving DecidableEq, Repr

/-- The echo type `echo.Response`: the headers, the functions registered with
`Before`, the status, whether the header has been written (`Committed`), and the
payloads the writer has accepted for the body so far, one for each write. -/
structure Response where
  header : Header
  beforeFuncs : List BeforeFunc
  Status : Nat
  Committed : Bool
  body : List Payload
deriving DecidableEq, Repr

/-- The parts of the inbound request `main.go` reads: method, path, the query
parameters in the order of the query string, and `bind`, the outcome of echo's
binder on the request body for a `User` target (the decoding itself is the
framework's: `.ok u` when it succeeds with the struct `u`, `.error e` when it
fails with the error `e`). -/
structure Request where
  method : Method
  path : String
  query : List (String × String)
  bind : Except GoError User

/-- The echo type `echo.Context` of one request: the request, the path
parameters bound by the router, the response, and the lines written to the
loggers while the request is handled. -/
structure Context where
  request : Request
  params : List (String × String)
  response : Response
  logs : List String

/-- The echo type `echo.HandlerFunc`, `func(c echo.Context) error`: the context
after the call and the returned error. -/
abbrev HandlerFunc := Context → Context × Option GoError

/-- The echo type `echo.MiddlewareFunc`. -/
abbrev MiddlewareFunc := HandlerFunc → HandlerFunc

/-! ## Framework operations used by `main.go` (modelled after echo v4) -/

/-- The method `Context.QueryParam`: the first value of the query parameter, the
empty string when it is absent. -/
def Context.QueryParam (c : Context) (name : String) : String :=
  match c.request.query.lookup name with
  | some v => v
  | none => ""

/-- The method `Context.Param`: the value the router bound to the path
parameter, the empty string when there is none. -/
def Context.Param (c : Context) (name : String) : String :=
  match c.params.lookup name with
  | some v => v
  | none => ""

/-- The method `Context.Bind` for a `User` target: the outcome of the binder. -/
def Context.Bind (c : Context) : Except GoError User :=
  c.request.bind

/-- A line written to a logger (`c.Logger().Infof`, `log.Printf`, the access log
and the warnings of the framework). -/
def Context.log (c : Context) (line : String) : Context :=
  { c with logs := c.logs ++ [line] }

/-- The method `Response.Before` (the finalize hook of sections 4.2 and 9 of the
specification): the function is appended to the functions run just before the
header is written. -/
def Response.Before (r : Response) (f : BeforeFunc) : Response :=
  { r with beforeFuncs := r.beforeFuncs ++ [f] }

/-- Runs registered functions in order on the headers. -/
def runBefore (fs : List BeforeFunc) (h : Header) : Header :=
  fs.foldl (fun acc f => acc.Set f.key f.value) h

/-- The method `Response.WriteHeader`: on a committed response only a warning is
logged; otherwise the status is set, the functions registered with `Before` run,
and the response is committed. -/
def Context.WriteHeader (c : Context) (code : Nat) : Context :=
  if c.response.Committed then
    c.log "response already committed"
  else
    { c with response :=
        { c.response with
            Status := code
            header := runBefore c.response.beforeFuncs c.response.header
            Committed := true } }

/-- The function `bodyAllowedForStatus` of `net/http`: a response with a status
from 100 to 199, 204 or 304 has no body. -/
def bodyAllowedForStatus (status : Nat) : Bool :=
  if 100 ≤ status ∧ status ≤ 199 then false
  else if status = 204 then false
  else if status = 304 then false
  else true

/-- The error `http.ErrBodyNotAllowed`. -/
def ErrBodyNotAllowed : GoError :=
  .other "http: request method or response status code does not allow body"

/-- The method `Response.Write`, called once the header is written: the writer of
`net/http` below it appends the payload to the body and returns `nil` when the
status written allows a body, and otherwise sends nothing and returns
`http.ErrBodyNotAllowed`.  (No write reaches the body of a HEAD request in this
server: its routes are for GET, POST and PUT, and the error handler answers HEAD
without a body.) -/
def Context.Write (c : Context) (p : Payload) : Context × Option GoError :=
  if bodyAllowedForStatus c.response.Status then
    ({ c with response := { c.response with body := c.response.body ++ [p] } }, none)
  else
    (c, some ErrBodyNotAllowed)

/-- The method `Context.JSON(code, v)`: writes the header with `code`, then the
JSON encoding of `v`; returns the error of the write. -/
def Context.JSON (c : Context) (code : Nat) (members : List (String × String)) :
    Context × Option GoError :=
  (c.WriteHeader code).Write (.json members)

/-- The method `Context.NoContent(code)`: writes the header with `code` and no
body; returns `nil`. -/
def Context.NoContent (c : Context) (code : Nat) : Context × Option GoError :=
  (c.WriteHeader code, none)

/-- The method `Context.String(code, s)`: writes the header with `code`, then the
text `s`; returns the error of the write. -/
def Context.String (c : Context) (code : Nat) (s : String) : Context × Option GoError :=
  (c.WriteHeader code).Write (.text s)

/-- The JSON encoding of a `User`, by the struct tags of lines 60-61. -/
def User.toJSON (u : User) : List (String × String) :=
  [("name", u.Name), ("email", u.Email)]

/-- The function `echo.NewHTTPError(code, message)`. -/
def NewHTTPError (code : Nat) (message : String) : GoError :=
  .http ⟨code, message⟩

/-! ## `main.go`: the middleware and the handlers -/

/-- The function registered by `serverHeader` with `Response.Before` (line 19). -/
def serverHook : BeforeFunc := ⟨"Server", "Go/Echo Custom Server"⟩

/-- The middleware `serverHeader` (lines 13-27): registers the header-setting
function with `Response.Before`, logs, calls `next` and returns its result.  The
logged duration `time.Since(start)` is not represented: the line is kept as its
format. -/
def serverHeader (next : HandlerFunc) : HandlerFunc := fun c =>
  let c := { c with response := c.response.Before serverHook }
  let c := c.log "Request processed in %v"
  let err := next c
  err

/-- The handler `handler` (lines 30-41). -/
def handler : HandlerFunc := fun c =>
  let name := c.QueryParam "name"
  if name = "" then
    c.String 200 "Hello, echo api server!"
  else
    c.String 200 ("Hello, " ++ name)

/-- The handler `helloPathHandler` (lines 43-56). -/
def helloPathHandler : HandlerFunc := fun c =>
  let name := c.Param "name"
  if name = "" then
    (c, some (NewHTTPError 400 "name is missing"))
  else
    c.JSON 200 [("message", "Hello, " ++ name)]

/-- The handler `userCreateHandler` (lines 65-79). -/
def userCreateHandler : HandlerFunc := fun c =>
  match c.Bind with
  | .error _ => (c, some (NewHTTPError 400 "リクエストボディの形式が不正です。"))
  | .ok user =>
    let c := c.log ("Received new user: Name=" ++ user.Name ++ ", Email=" ++ user.Email)
    c.JSON 201 user.toJSON

/-- The handler `userModifyHandler` (lines 82-96). -/
def userModifyHandler : HandlerFunc := fun c =>
  match c.Bind with
  | .error _ => (c, some (NewHTTPError 400 "リクエストボディの形式が不正です。"))
  | .ok user =>
    let c := c.log ("Received new user: Name=" ++ user.Name ++ ", Email=" ++ user.Email)
    c.JSON 204 user.toJSON

/-! ## Framework: error handler and the middleware of the library -/

/-- The error `echo.ErrNotFound`. -/
def ErrNotFound : GoError := NewHTTPError 404 "Not Found"

/-- The error `echo.ErrMethodNotAllowed`. -/
def ErrMethodNotAllowed : GoError := NewHTTPError 405 "Method Not Allowed"

/-- The method `Echo.DefaultHTTPErrorHandler` (with `Debug` off, as in
`main.go`; the error translator of section 4.4 of the specification): nothing
is written on a committed response; an `HTTPError` is sent with its code and
the JSON object whose member `message` is its message, any other error as 500
with the text of that status; a HEAD request gets the code without a body.  An
error of that write is logged. -/
def DefaultHTTPErrorHandler (err : GoError) (c : Context) : Context :=
  if c.response.Committed then c
  else
    let he : HTTPError :=
      match err with
      | .http e => e
      | .other _ => ⟨500, "Internal Server Error"⟩
    let r :=
      if c.request.method = .HEAD then c.NoContent he.Code
      else c.JSON he.Code [("message", he.Message)]
    match r.2 with
    | some (.http e) => r.1.log e.Message
    | some (.other text) => r.1.log text
    | none => r.1

/-- The step `if err := h(c); err != nil { e.HTTPErrorHandler(err, c) }`, taken by
`ServeHTTP` and, as `c.Error(err)`, by the logger middleware: a returned error
goes to the error handler, `nil` leaves the context as it is. -/
def handleResult (r : Context × Option GoError) : Context :=
  match r.2 with
  | some err => DefaultHTTPErrorHandler err r.1
  | none => r.1

/-- The middleware `middleware.Logger()`: calls `next`, hands a returned error to
the error handler (`c.Error(err)`), writes the access log line and returns `nil`. -/
def Logger (next : HandlerFunc) : HandlerFunc := fun c =>
  let c1 := handleResult (next c)
  (c1.log "access log", none)

/-- The middleware `middleware.Recover()`: calls `next` and returns its result; it
acts only on a panic, and no function of `main.go` panics. -/
def Recover (next : HandlerFunc) : HandlerFunc := fun c =>
  next c

/-! ## Framework: registration and routing -/

/-- The handlers a route can carry: the four of `main.go` and the three the
router supplies when no route of the method matches; the last two carry the
value of the `Allow` header the router computed for the path. -/
inductive HandlerId where
  | handler | helloPathHandler | userCreateHandler | userModifyHandler
  | NotFoundHandler
  | MethodNotAllowedHandler (allow : String)
  | optionsMethodHandler (allow : String)
deriving DecidableEq, Repr

/-- The middleware `main.go` registers. -/
inductive MiddlewareId where
  | Logger | Recover | serverHeader
deriving DecidableEq, Repr

/-- The function a handler value stands for.  The not-found handler returns
`echo.ErrNotFound`; the method-not-allowed handler sets the `Allow` header and
returns `echo.ErrMethodNotAllowed`; the handler for OPTIONS adds the `Allow`
header and answers 204 without a body. -/
def HandlerId.run : HandlerId → HandlerFunc
  | .handler => GoEcho.handler
  | .helloPathHandler => GoEcho.helloPathHandler
  | .userCreateHandler => GoEcho.userCreateHandler
  | .userModifyHandler => GoEcho.userModifyHandler
  | .NotFoundHandler => fun c => (c, some ErrNotFound)
  | .MethodNotAllowedHandler allow => fun c =>
    let c :=
      if allow = "" then c
      else { c with response := { c.response with header := c.response.header.Set "Allow" allow } }
    (c, some ErrMethodNotAllowed)
  | .optionsMethodHandler allow => fun c =>
    let c := { c with response := { c.response with header := c.response.header.Add "Allow" allow } }
    c.NoContent 204

/-- The function a middleware value stands for. -/
def MiddlewareId.run : MiddlewareId → MiddlewareFunc
  | .Logger => GoEcho.Logger
  | .Recover => GoEcho.Recover
  | .serverHeader => GoEcho.serverHeader

/-- A registered route: method, absolute path pattern, handler, and the
middleware of its group at the time of registration (echo wraps the handler in
them when the route is added). -/
structure Route where
  Method : Method
  Path : String
  handler : HandlerId
  middleware : List MiddlewareId
deriving DecidableEq, Repr

/-- The echo instance: the middleware registered with `e.Use` and the routes. -/
structure Echo where
  middleware : List MiddlewareId
  routes : List Route
deriving DecidableEq, Repr

/-- A route group: the path it puts in front of its routes and its middleware. -/
structure Group where
  base : String
  middleware : List MiddlewareId
deriving DecidableEq, Repr

/-- The function `echo.New()`. -/
def Echo.New : Echo := ⟨[], []⟩

/-- The method `Echo.Use`: the middleware is appended to the global chain. -/
def Echo.Use (e : Echo) (m : MiddlewareId) : Echo :=
  { e with middleware := e.middleware ++ [m] }

/-- The method `Echo.Group(path)`, called without middleware: nothing is
registered. -/
def Echo.Group (_e : Echo) (path : String) : Group :=
  ⟨path, []⟩

/-- The method `Group.Add`: the route is added to the echo instance under the
path of the group followed by `path`, with the middleware of the group. -/
def Group.Add (g : Group) (e : Echo) (method : Method) (path : String) (h : HandlerId) : Echo :=
  { e with routes := e.routes ++ [⟨method, g.base ++ path, h, g.middleware⟩] }

/-- The method `Group.Use`: the middleware is appended to the chain of the
group, and the not-found handler is registered for the path of the group and
for everything under it (`g.RouteNotFound("", NotFoundHandler)` and
`g.RouteNotFound("/*", NotFoundHandler)`), so that the middleware of the group
also runs for an unmatched request under the group. -/
def Group.Use (g : Group) (e : Echo) (m : MiddlewareId) : Group × Echo :=
  let g := { g with middleware := g.middleware ++ [m] }
  let e := g.Add e .RouteNotFound "" .NotFoundHandler
  let e := g.Add e .RouteNotFound "/*" .NotFoundHandler
  (g, e)

/-- The method `Group.GET`. -/
def Group.GET (g : Group) (e : Echo) (path : String) (h : HandlerId) : Echo :=
  g.Add e .GET path h

/-- The method `Group.POST`. -/
def Group.POST (g : Group) (e : Echo) (path : String) (h : HandlerId) : Echo :=
  g.Add e .POST path h

/-- The method `Group.PUT`. -/
def Group.PUT (g : Group) (e : Echo) (path : String) (h : HandlerId) : Echo :=
  g.Add e .PUT path h

/-- The registrations of `main` (lines 98-118), up to the call that starts the
server.  `e.Logger.SetLevel(log.DEBUG)` only makes the logger emit every line. -/
def main : Echo :=
  let e := Echo.New
  let e := e.Use .Logger
  let e := e.Use .Recover
  let e := e.Use .serverHeader
  let helloGroup := e.Group "/hello"
  let e := helloGroup.GET e "/" .handler
  let e := helloGroup.GET e "/:name" .helloPathHandler
  let userGroup := e.Group "/users"
  let used := userGroup.Use e .serverHeader
  let userGroup := used.1
  let e := used.2
  let e := userGroup.POST e "/" .userCreateHandler
  let e := userGroup.PUT e "/" .userModifyHandler
  e

/-- A path cut at every `/`: `/hello/` gives the segments empty, `hello`, empty,
and `/hello` the segments empty, `hello`. -/
def splitPath : List Char → List (List Char)
  | [] => [[]]
  | ch :: rest =>
    if ch = '/' then [] :: splitPath rest
    else
      match splitPath rest with
      | [] => [[ch]]
      | seg :: segs => (ch :: seg) :: segs

/-- Segments put together again with `/` between them. -/
def joinSegments : List (List Char) → List Char
  | [] => []
  | [seg] => seg
  | seg :: next :: rest => seg ++ '/' :: joinSegments (next :: rest)

/-- Matches the segments of a pattern against those of a request path and
returns the parameter values found.  A literal segment matches only the same
text.  As the last segment of a pattern, `:name` takes all that is left of the
path, which must not be empty, and `*` takes all that is left of the path, empty
or not.  A segment `:name` followed by further segments takes one non-empty
segment (no pattern of `main.go` has one). -/
def matchSegments : List (List Char) → List (List Char) → Option (List (String × String))
  | [], [] => some []
  | [], _ :: _ => none
  | _ :: _, [] => none
  | [p], s :: ss =>
    match p with
    | ['*'] => some [("*", String.mk (joinSegments (s :: ss)))]
    | ':' :: name =>
      if joinSegments (s :: ss) = [] then none
      else some [(String.mk name, String.mk (joinSegments (s :: ss)))]
    | _ => if p = s ∧ ss = [] then some [] else none
  | p :: q :: ps, s :: ss =>
    match p with
    | ':' :: name =>
      if s = [] then none
      else (matchSegments (q :: ps) ss).map (fun bound => (String.mk name, String.mk s) :: bound)
    | _ => if p = s then matchSegments (q :: ps) ss else none

/-- Whether a route pattern matches a request path, with the parameters bound. -/
def Route.matchPath (r : Route) (path : String) : Option (List (String × String)) :=
  matchSegments (splitPath r.Path.toList) (splitPath path.toList)

/-- The result of a router lookup: the handler, the middleware of the route and
the path parameters. -/
structure Found where
  handler : HandlerId
  middleware : List MiddlewareId
  params : List (String × String)
deriving DecidableEq, Repr

/-- The value of the `Allow` header for a path: OPTIONS, then the methods that
have a route for it, in the order echo writes them. -/
def allowHeader (methods : List Method) : String :=
  ", ".intercalate ("OPTIONS" ::
    (([(Method.CONNECT, "CONNECT"), (.DELETE, "DELETE"), (.GET, "GET"), (.HEAD, "HEAD"),
       (.PATCH, "PATCH"), (.POST, "POST"), (.PUT, "PUT"), (.TRACE, "TRACE")].filter
      (fun m => methods.contains m.1)).map (fun m => m.2)))

/-- The method `Router.Find`.  The route of the method whose pattern matches the
path is taken.  When there is none: a not-found route that matches the path is
taken, with the middleware of its group; otherwise, when routes of other methods
match the path, the handler for OPTIONS or the method-not-allowed handler; and
otherwise the not-found handler.  Echo compares the request path with the
registered patterns as they are, so a trailing `/` is part of the pattern; paths
with and without it are identified only by the middleware `AddTrailingSlash` or
`RemoveTrailingSlash`, and `main.go` installs neither.  (No two patterns of one
method in `main.go` match the same path, so the priority echo gives to a literal
segment over a parameter, and to a parameter over `*`, plays no part.) -/
def Echo.Find (e : Echo) (method : Method) (path : String) : Found :=
  let hits := e.routes.filterMap (fun r => (r.matchPath path).map (fun ps => (r, ps)))
  match hits.find? (fun hit => hit.1.Method = method) with
  | some hit => ⟨hit.1.handler, hit.1.middleware, hit.2⟩
  | none =>
    match hits.find? (fun hit => hit.1.Method = .RouteNotFound) with
    | some hit => ⟨hit.1.handler, hit.1.middleware, hit.2⟩
    | none =>
      if hits.isEmpty then ⟨.NotFoundHandler, [], []⟩
      else if method = .OPTIONS then
        ⟨.optionsMethodHandler (allowHeader (hits.map (fun hit => hit.1.Method))), [], []⟩
      else
        ⟨.MethodNotAllowedHandler (allowHeader (hits.map (fun hit => hit.1.Method))), [], []⟩

/-- The function `applyMiddleware`: the first middleware of the list is the
outermost wrapper. -/
def applyMiddleware (h : HandlerFunc) (ms : List MiddlewareFunc) : HandlerFunc :=
  ms.foldr (fun m acc => m acc) h

/-- The context echo hands to the chain for a request: nothing written, no
header, no function registered. -/
def NewContext (req : Request) (params : List (String × String)) : Context :=
  { request := req
    params := params
    response := ⟨⟨[]⟩, [], 0, false, []⟩
    logs := [] }

/-- The middleware chain run for a request, outermost first: the global
middleware in the order of `e.Use`, then the middleware of the route. -/
def Echo.chain (e : Echo) (req : Request) : List MiddlewareId :=
  e.middleware ++ (e.Find req.method req.path).middleware

/-- The method `Echo.ServeHTTP`: the router looks the request up, the handler
found is wrapped in the middleware and run, and an error it returns goes to the
error handler.  The result is the context at the end of the request. -/
def Echo.ServeHTTP (e : Echo) (req : Request) : Context :=
  let found := e.Find req.method req.path
  let c := NewContext req found.params
  let h := applyMiddleware found.handler.run
    ((e.middleware ++ found.middleware).map MiddlewareId.run)
  handleResult (h c)

/-! ## Observation of a context -/

/-- Two contexts that look the same through `echo.Context` and `echo.Response`:
the same request, path parameters, headers, status, committed flag and body,
and registered functions that have the same effect on every header set.  The
list of registered functions itself (a private field of the response) and the
log are not compared. -/
def SameOutcome (c1 c2 : Context) : Prop :=
  c1.request = c2.request ∧ c1.params = c2.params ∧
  c1.response.header = c2.response.header ∧
  c1.response.Status = c2.response.Status ∧
  c1.response.Committed = c2.response.Committed ∧
  c1.response.body = c2.response.body ∧
  ∀ h, runBefore c1.response.beforeFuncs h = runBefore c2.response.beforeFuncs h

/-- A handler that treats contexts that look the same alike: it returns the same
error on both and leaves them looking the same.  A Go handler can only have the
registered functions run, not inspect them, and cannot read the log. -/
def Respects (next : HandlerFunc) : Prop :=
  ∀ c1 c2, SameOutcome c1 c2 →
    (next c1).2 = (next c2).2 ∧ SameOutcome (next c1).1 (next c2).1

/-! ## Requests of the scenarios -/

/-- Scenario B: `GET /hello/?name=World` (no body to bind). -/
def reqHelloWorld : Request := ⟨.GET, "/hello/", [("name", "World")], .error (.other "EOF")⟩

/-- Scenario A: `GET /hello/`. -/
def reqHello : Request := ⟨.GET, "/hello/", [], .error (.other "EOF")⟩

/-- The request `GET /hello`, without the trailing slash. -/
def reqHelloNoSlash : Request := ⟨.GET, "/hello", [], .error (.other "EOF")⟩

/-- Scenario C: `GET /hello/Taro`. -/
def reqHelloTaro : Request := ⟨.GET, "/hello/Taro", [], .error (.other "EOF")⟩

/-- Scenario E: `POST /users/` with the body of the user A, a@b.com. -/
def reqCreate : Request := ⟨.POST, "/users/", [], .ok ⟨"A", "a@b.com"⟩⟩

/-- Scenario F: `POST /users/` with a body that does not decode. -/
def reqCreateMalformed : Request := ⟨.POST, "/users/", [], .error (.other "unexpected EOF")⟩

/-- The request `PUT /users/` with the body of the user A, a@b.com. -/
def reqModify : Request := ⟨.PUT, "/users/", [], .ok ⟨"A", "a@b.com"⟩⟩

/-! ## Lemmas on the framework operations -/

theorem WriteHeader_fresh (c : Context) (code : Nat) (hfresh : c.response.Committed = false) :
    c.WriteHeader code =
      { c with response :=
          { c.response with
              Status := code
              header := runBefore c.response.beforeFuncs c.response.header
              Committed := true } } := by
  simp [Context.WriteHeader, hfresh]

theorem String_fresh (c : Context) (code : Nat) (s : String)
    (hfresh : c.response.Committed = false) (hcode : bodyAllowedForStatus code = true) :
    (c.String code s).2 = none ∧
    (c.String code s).1.response.Status = code ∧
    (c.String code s).1.response.Committed = true ∧
    (c.String code s).1.response.body = c.response.body ++ [.text s] := by
  simp [Context.String, Context.Write, WriteHeader_fresh c code hfresh, hcode]

theorem JSON_fresh (c : Context) (code : Nat) (members : List (String × String))
    (hfresh : c.response.Committed = false) (hcode : bodyAllowedForStatus code = true) :
    (c.JSON code members).2 = none ∧
    (c.JSON code members).1.response.Status = code ∧
    (c.JSON code members).1.response.Committed = true ∧
    (c.JSON code members).1.response.body = c.response.body ++ [.json members] := by
  simp [Context.JSON, Context.Write, WriteHeader_fresh c code hfresh, hcode]

/-- A `c.JSON` with a status that allows no body: the header is written, the
writer refuses the body, and the call returns `http.ErrBodyNotAllowed`. -/
theorem JSON_refused (c : Context) (code : Nat) (members : List (String × String))
    (hfresh : c.response.Committed = false) (hcode : bodyAllowedForStatus code = false) :
    (c.JSON code members).2 = some ErrBodyNotAllowed ∧
    (c.JSON code members).1.response.Status = code ∧
    (c.JSON code members).1.response.Committed = true ∧
    (c.JSON code members).1.response.body = c.response.body := by
  simp [Context.JSON, Context.Write, WriteHeader_fresh c code hfresh, hcode]

theorem WriteHeader_body (c : Context) (code : Nat) :
    (c.WriteHeader code).response.body = c.response.body := by
  unfold Context.WriteHeader
  split <;> rfl

theorem WriteHeader_Committed (c : Context) (code : Nat) :
    (c.WriteHeader code).response.Committed = true := by
  unfold Context.WriteHeader
  split
  · simpa [Context.log]
  · rfl

/-- One call of `c.String` or `c.JSON`, that is the header written and then one
write: the call never returns an `HTTPError`, it leaves the response committed
with at most the one payload added, and the error handler adds nothing to it. -/
theorem write_call (c : Context) (code : Nat) (p : Payload) :
    (∀ e, ((c.WriteHeader code).Write p).2 ≠ some (.http e)) ∧
    ((c.WriteHeader code).Write p).1.response.Committed = true ∧
    (((c.WriteHeader code).Write p).1.response.body = c.response.body ∨
      ((c.WriteHeader code).Write p).1.response.body = c.response.body ++ [p]) ∧
    handleResult ((c.WriteHeader code).Write p) = ((c.WriteHeader code).Write p).1 := by
  have hcom := WriteHeader_Committed c code
  have hbody := WriteHeader_body c code
  unfold Context.Write
  split
  · simp [hcom, hbody, handleResult]
  · simp [hcom, hbody, handleResult, ErrBodyNotAllowed, DefaultHTTPErrorHandler]

/-- The error handler on an `HTTPError` with status 400 and a fresh response: one
write, the status with the message as JSON, or the status alone for HEAD. -/
theorem handleResult_400 (c : Context) (message : String)
    (hfresh : c.response.Committed = false) :
    handleResult (c, some (.http ⟨400, message⟩)) =
      (if c.request.method = .HEAD then (c.NoContent 400).1
       else (c.JSON 400 [("message", message)]).1) ∧
    (handleResult (c, some (.http ⟨400, message⟩))).response.Committed = true ∧
    (handleResult (c, some (.http ⟨400, message⟩))).response.body.length
      ≤ c.response.body.length + 1 := by
  by_cases hm : c.request.method = .HEAD
  · simp [handleResult, DefaultHTTPErrorHandler, hfresh, hm, Context.NoContent,
      WriteHeader_fresh c 400 hfresh]
  · have hj := JSON_fresh c 400 [("message", message)] hfresh rfl
    simp [handleResult, DefaultHTTPErrorHandler, hfresh, hm, hj.1, hj.2.2.1, hj.2.2.2]

/-! ## The handlers -/

/-- Claim C1.  On a context whose response is not yet committed, `handler`
returns `nil`, commits the response with status 200 and writes exactly one text
payload: "Hello, echo api server!" when the query parameter `name` is absent or
empty, and "Hello, " followed by its value otherwise. -/
theorem handler_greeting (c : Context) (hfresh : c.response.Committed = false) :
    (handler c).2 = none ∧
    (handler c).1.response.Status = 200 ∧
    (handler c).1.response.Committed = true ∧
    (c.request.query.lookup "name" = none ∨ c.request.query.lookup "name" = some "" →
      (handler c).1.response.body = c.response.body ++ [.text "Hello, echo api server!"]) ∧
    (∀ v, c.request.query.lookup "name" = some v → v ≠ "" →
      (handler c).1.response.body = c.response.body ++ [.text ("Hello, " ++ v)]) := by
  have h1 := String_fresh c 200 "Hello, echo api server!" hfresh rfl
  have h2 := fun v => String_fresh c 200 ("Hello, " ++ v) hfresh rfl
  refine ⟨?_, ?_, ?_, ?_, ?_⟩
  · unfold handler; dsimp only; split
    · exact h1.1
    · exact (h2 _).1
  · unfold handler; dsimp only; split
    · exact h1.2.1
    · exact (h2 _).2.1
  · unfold handler; dsimp only; split
    · exact h1.2.2.1
    · exact (h2 _).2.2.1
  · intro hq
    have hname : c.QueryParam "name" = "" := by
      rcases hq with hq | hq <;> simp [Context.QueryParam, hq]
    simp only [handler, hname, if_true]
    exact h1.2.2.2
  · intro v hv hne
    have hname : c.QueryParam "name" = v := by simp [Context.QueryParam, hv]
    simp only [handler, hname, if_neg hne]
    exact (h2 v).2.2.2

/-- Scenario B of the specification, as an instance of `handler_greeting`: a
fresh context for `GET /hello/?name=World`. -/
theorem handler_greeting_witness :
    (NewContext reqHelloWorld []).response.Committed = false ∧
    (handler (NewContext reqHelloWorld [])).2 = none ∧
    (handler (NewContext reqHelloWorld [])).1.response.Status = 200 ∧
    (handler (NewContext reqHelloWorld [])).1.response.body = [.text "Hello, World"] :=
  have h := handler_greeting (NewContext reqHelloWorld []) rfl
  ⟨rfl, h.1, h.2.1, h.2.2.2.2 "World" rfl (by decide)⟩

/-- Claim C2.  `helloPathHandler` returns an error exactly when the path
parameter `name` is empty; the error is then the `HTTPError` with status 400 and
message "name is missing" and the context, so the response, is left as it was.
For a non-empty `name`, on a response not yet committed, it returns `nil`,
commits with status 200 and writes exactly one JSON payload, the object with the
single member `message` of value "Hello, " followed by `name`. -/
theorem helloPathHandler_contract (c : Context) (hfresh : c.response.Committed = false) :
    ((∃ e, (helloPathHandler c).2 = some (.http e)) ↔ c.Param "name" = "") ∧
    ((helloPathHandler c).2 ≠ none ↔ c.Param "name" = "") ∧
    (c.Param "name" = "" →
      helloPathHandler c = (c, some (.http ⟨400, "name is missing"⟩))) ∧
    (c.Param "name" ≠ "" →
      (helloPathHandler c).2 = none ∧
      (helloPathHandler c).1.response.Status = 200 ∧
      (helloPathHandler c).1.response.Committed = true ∧
      (helloPathHandler c).1.response.body =
        c.response.body ++ [.json [("message", "Hello, " ++ c.Param "name")]]) := by
  have hj := JSON_fresh c 200 [("message", "Hello, " ++ c.Param "name")] hfresh rfl
  by_cases hname : c.Param "name" = ""
  · have hrun : helloPathHandler c = (c, some (.http ⟨400, "name is missing"⟩)) := by
      simp [helloPathHandler, hname, NewHTTPError]
    refine ⟨?_, ?_, fun _ => hrun, fun hne => absurd hname hne⟩
    · simp [hrun, hname]
    · simp [hrun, hname]
  · have hrun : helloPathHandler c = c.JSON 200 [("message", "Hello, " ++ c.Param "name")] := by
      simp [helloPathHandler, hname]
    refine ⟨?_, ?_, fun h => absurd h hname, fun _ => ?_⟩
    · simp [hrun, hname, hj.1]
    · simp [hrun, hname, hj.1]
    · rw [hrun]; exact hj

/-- Scenario C of the specification, as an instance of
`helloPathHandler_contract`: the context of `GET /hello/Taro` with `name` bound
to Taro. -/
theorem helloPathHandler_contract_witness :
    (NewContext reqHelloTaro [("name", "Taro")]).response.Committed = false ∧
    (helloPathHandler (NewContext reqHelloTaro [("name", "Taro")])).2 = none ∧
    (helloPathHandler (NewContext reqHelloTaro [("name", "Taro")])).1.response.Status = 200 ∧
    (helloPathHandler (NewContext reqHelloTaro [("name", "Taro")])).1.response.body =
      [.json [("message", "Hello, Taro")]] :=
  have h := (helloPathHandler_contract (NewContext reqHelloTaro [("name", "Taro")]) rfl).2.2.2
    (by decide)
  ⟨rfl, h.1, h.2.1, h.2.2.2⟩

/-- Claim C3.  `userCreateHandler`: when binding fails, with whatever error, it
returns the `HTTPError` with status 400 and the fixed message and leaves the
context as it was; when binding succeeds with a `User`, whatever its fields, it
returns `nil` and, on a response not yet committed, commits with status 201 and
writes exactly one JSON payload, the object with the members `name` and `email`
of that `User`, unchanged. -/
theorem userCreateHandler_contract (c : Context) (hfresh : c.response.Committed = false) :
    (∀ err, c.Bind = .error err →
      userCreateHandler c =
        (c, some (.http ⟨400, "リクエストボディの形式が不正です。"⟩))) ∧
    (∀ user, c.Bind = .ok user →
      (userCreateHandler c).2 = none ∧
      (userCreateHandler c).1.response.Status = 201 ∧
      (userCreateHandler c).1.response.Committed = true ∧
      (userCreateHandler c).1.response.body =
        c.response.body ++ [.json [("name", user.Name), ("email", user.Email)]]) := by
  constructor
  · intro err herr
    simp [userCreateHandler, herr, NewHTTPError]
  · intro user huser
    have hj := JSON_fresh
      (c.log ("Received new user: Name=" ++ user.Name ++ ", Email=" ++ user.Email))
      201 user.toJSON hfresh rfl
    have hrun : userCreateHandler c =
        (c.log ("Received new user: Name=" ++ user.Name ++ ", Email=" ++ user.Email)).JSON
          201 user.toJSON := by
      simp [userCreateHandler, huser]
    rw [hrun]
    exact hj

/-- Scenarios E and F of the specification, as instances of
`userCreateHandler_contract`, and a bound `User` with empty fields. -/
theorem userCreateHandler_contract_witness :
    (NewContext reqCreate []).response.Committed = false ∧
    (userCreateHandler (NewContext reqCreate [])).1.response.Status = 201 ∧
    (userCreateHandler (NewContext reqCreate [])).1.response.body =
      [.json [("name", "A"), ("email", "a@b.com")]] ∧
    userCreateHandler (NewContext reqCreateMalformed []) =
      (NewContext reqCreateMalformed [],
        some (.http ⟨400, "リクエストボディの形式が不正です。"⟩)) ∧
    (userCreateHandler (NewContext ⟨.POST, "/users/", [], .ok ⟨"", ""⟩⟩ [])).1.response.body =
      [.json [("name", ""), ("email", "")]] :=
  have h := (userCreateHandler_contract (NewContext reqCreate []) rfl).2 ⟨"A", "a@b.com"⟩ rfl
  have hbad := (userCreateHandler_contract (NewContext reqCreateMalformed []) rfl).1
    (.other "unexpected EOF") rfl
  have hempty := (userCreateHandler_contract
    (NewContext ⟨.POST, "/users/", [], .ok ⟨"", ""⟩⟩ []) rfl).2 ⟨"", ""⟩ rfl
  ⟨rfl, h.2.1, h.2.2.2, hbad, hempty.2.2.2⟩

/-- Claim C8.  The handler `serverHeader next` is `next` applied once to the
context it was given, changed only by the registration of the header-setting
function and one log line, and that context does not depend on `next`: the
status, the committed flag, the headers and the body are as on entry, so nothing
is written before `next` runs; and the result, context and error, is exactly the
result of that one call of `next`, so nothing is written or replaced after. -/
theorem serverHeader_wraps_next (c : Context) :
    ∃ c1 : Context,
      c1.request = c.request ∧ c1.params = c.params ∧
      c1.response.header = c.response.header ∧
      c1.response.Status = c.response.Status ∧
      c1.response.Committed = c.response.Committed ∧
      c1.response.body = c.response.body ∧
      c1.response.beforeFuncs = c.response.beforeFuncs ++ [serverHook] ∧
      c1.logs = c.logs ++ ["Request processed in %v"] ∧
      ∀ next : HandlerFunc,
        serverHeader next c = next c1 ∧
        (serverHeader next c).2 = (next c1).2 ∧
        (serverHeader next c).1.response = (next c1).1.response := by
  refine Exists.intro
    (({ c with response := c.response.Before serverHook }).log "Request processed in %v") ?_
  exact ⟨rfl, rfl, rfl, rfl, rfl, rfl, rfl, rfl, fun _ => ⟨rfl, rfl, rfl⟩⟩

/-! ## Registration, routing and dispatch -/

theorem main_middleware : main.middleware = [.Logger, .Recover, .serverHeader] := rfl

theorem main_routes : main.routes =
    [⟨.GET, "/hello/", .handler, []⟩, ⟨.GET, "/hello/:name", .helloPathHandler, []⟩,
     ⟨.RouteNotFound, "/users", .NotFoundHandler, [.serverHeader]⟩,
     ⟨.RouteNotFound, "/users/*", .NotFoundHandler, [.serverHeader]⟩,
     ⟨.POST, "/users/", .userCreateHandler, [.serverHeader]⟩,
     ⟨.PUT, "/users/", .userModifyHandler, [.serverHeader]⟩] := by decide

theorem Find_users_POST :
    main.Find .POST "/users/" = ⟨.userCreateHandler, [.serverHeader], []⟩ := by decide

theorem Find_users_PUT :
    main.Find .PUT "/users/" = ⟨.userModifyHandler, [.serverHeader], []⟩ := by decide

theorem Find_hello_slash : main.Find .GET "/hello/" = ⟨.handler, [], []⟩ := by decide

theorem Find_hello_no_slash : main.Find .GET "/hello" = ⟨.NotFoundHandler, [], []⟩ := by decide

theorem Values_Set (h : Header) (key value : String) : (h.Set key value).Values key = [value] := by
  simp [Header.Set, Header.Values, List.lookup]

theorem runBefore_append (fs gs : List BeforeFunc) (h : Header) :
    runBefore (fs ++ gs) h = runBefore gs (runBefore fs h) := by
  simp [runBefore, List.foldl_append]

theorem Set_Set (h : Header) (key value : String) :
    (h.Set key value).Set key value = h.Set key value := by
  simp [Header.Set, List.filter_filter]

theorem runBefore_hook_twice (h : Header) :
    runBefore [serverHook, serverHook] h = runBefore [serverHook] h := by
  simp [runBefore, Set_Set]

/-- The response at the end of a request to `POST /users/` or `PUT /users/`. -/
theorem users_dispatch (req : Request) (hpath : req.path = "/users/")
    (hmethod : req.method = .POST ∨ req.method = .PUT) :
    (main.ServeHTTP req).response.Committed = true ∧
    (main.ServeHTTP req).response.header.Values "Server" = ["Go/Echo Custom Server"] ∧
    (∀ err, req.bind = .error err →
      (main.ServeHTTP req).response.Status = 400 ∧
      (main.ServeHTTP req).response.body =
        [.json [("message", "リクエストボディの形式が不正です。")]]) ∧
    (∀ user, req.bind = .ok user →
      (main.ServeHTTP req).response.Status = (if req.method = .POST then 201 else 204) ∧
      (main.ServeHTTP req).response.body =
        (if req.method = .POST then [.json user.toJSON] else [])) := by
  obtain ⟨m, path, q, b⟩ := req
  simp only at hpath hmethod
  subst hpath
  rcases hmethod with rfl | rfl <;> cases b <;>
    simp [Echo.ServeHTTP, Find_users_POST, Find_users_PUT, main_middleware, applyMiddleware,
      MiddlewareId.run, HandlerId.run, Logger, Recover, serverHeader, userCreateHandler,
      userModifyHandler, handleResult, DefaultHTTPErrorHandler, NewContext, Context.Bind,
      Context.log, Response.Before, Context.JSON, Context.WriteHeader, Context.Write,
      bodyAllowedForStatus, ErrBodyNotAllowed,
      NewHTTPError, runBefore, serverHook, Header.Set, Header.Values, List.lookup]

/-- Claim C4.  When the body binds to a `User`, `userModifyHandler`, on a
response not yet committed, commits it with status 204 and adds nothing to the
body: the `c.JSON` call writes the header, the writer refuses a body for that
status, and the handler returns the error of the refused write
(`http.ErrBodyNotAllowed`, not an `HTTPError`).  At the end of the dispatch of
`PUT /users/` with such a body, whatever the query string, the response has
status 204 and an empty body. -/
theorem userModifyHandler_no_content (c : Context) (hfresh : c.response.Committed = false)
    (user : User) (hbind : c.Bind = .ok user) :
    (userModifyHandler c).1.response.Status = 204 ∧
    (userModifyHandler c).1.response.Committed = true ∧
    (userModifyHandler c).1.response.body = c.response.body ∧
    (userModifyHandler c).2 = some ErrBodyNotAllowed ∧
    (∀ q, (main.ServeHTTP ⟨.PUT, "/users/", q, .ok user⟩).response.Status = 204 ∧
      (main.ServeHTTP ⟨.PUT, "/users/", q, .ok user⟩).response.Committed = true ∧
      (main.ServeHTTP ⟨.PUT, "/users/", q, .ok user⟩).response.body = []) := by
  have hj := JSON_refused
    (c.log ("Received new user: Name=" ++ user.Name ++ ", Email=" ++ user.Email))
    204 user.toJSON hfresh rfl
  have hrun : userModifyHandler c =
      (c.log ("Received new user: Name=" ++ user.Name ++ ", Email=" ++ user.Email)).JSON
        204 user.toJSON := by
    simp [userModifyHandler, hbind]
  refine ⟨?_, ?_, ?_, ?_, fun q => ?_⟩
  · rw [hrun]; exact hj.2.1
  · rw [hrun]; exact hj.2.2.1
  · rw [hrun]; exact hj.2.2.2
  · rw [hrun]; exact hj.1
  · have hd := users_dispatch ⟨.PUT, "/users/", q, .ok user⟩ rfl (Or.inr rfl)
    have hok := hd.2.2.2 user rfl
    exact ⟨by simpa using hok.1, hd.1, by simpa using hok.2⟩

/-- The request `PUT /users/` with the user A, a@b.com, as an instance of
`userModifyHandler_no_content`. -/
theorem userModifyHandler_no_content_witness :
    (NewContext reqModify []).response.Committed = false ∧
    (NewContext reqModify []).Bind = .ok ⟨"A", "a@b.com"⟩ ∧
    (userModifyHandler (NewContext reqModify [])).1.response.Status = 204 ∧
    (userModifyHandler (NewContext reqModify [])).1.response.body = [] ∧
    (main.ServeHTTP reqModify).response.Status = 204 ∧
    (main.ServeHTTP reqModify).response.body = [] :=
  have h := userModifyHandler_no_content (NewContext reqModify []) rfl ⟨"A", "a@b.com"⟩ rfl
  ⟨rfl, rfl, h.1, h.2.2.1, (h.2.2.2.2 []).1, (h.2.2.2.2 []).2.2⟩

/-- Claim C9.  For each of the four handlers of `main.go` and every context:
when the call does not return an `HTTPError` it is exactly one call of `c.String`
or `c.JSON`, on a context whose response is as on entry; when it returns an
`HTTPError` (always with status 400) no primitive was called and the context is
as on entry.  Hence, from a response not yet committed, one response is written:
on the first path the call of the handler commits it and the error handler adds
nothing, on the second the error handler makes the one write (the status with
the message as JSON, the status alone for HEAD); at most one payload is in the
body at the end. -/
theorem handlers_write_once (h : HandlerId)
    (hh : h ∈ [HandlerId.handler, .helloPathHandler, .userCreateHandler, .userModifyHandler])
    (c : Context) :
    ((∀ e, (h.run c).2 ≠ some (.http e)) →
      ∃ c1 : Context, c1.request = c.request ∧ c1.params = c.params ∧
        c1.response = c.response ∧
        ((∃ s, h.run c = c1.String 200 s) ∨
          (∃ code members, h.run c = c1.JSON code members))) ∧
    (∀ e, (h.run c).2 = some (.http e) → (h.run c).1 = c ∧ e.Code = 400) ∧
    (c.response.Committed = false →
      (handleResult (h.run c)).response.Committed = true ∧
      ((∀ e, (h.run c).2 ≠ some (.http e)) →
        (h.run c).1.response.Committed = true ∧ handleResult (h.run c) = (h.run c).1) ∧
      (∀ e, (h.run c).2 = some (.http e) →
        handleResult (h.run c) =
          (if c.request.method = .HEAD then (c.NoContent 400).1
           else (c.JSON 400 [("message", e.Message)]).1)) ∧
      (handleResult (h.run c)).response.body.length ≤ c.response.body.length + 1) := by
  have key : (∃ c1 : Context, ∃ code p, c1.request = c.request ∧ c1.params = c.params ∧
        c1.response = c.response ∧ h.run c = (c1.WriteHeader code).Write p ∧
        ((∃ s, h.run c = c1.String 200 s) ∨
          (∃ code members, h.run c = c1.JSON code members))) ∨
      (∃ message, h.run c = (c, some (.http ⟨400, message⟩))) := by
    simp only [List.mem_cons, List.mem_singleton, List.mem_nil_iff, or_false] at hh
    rcases hh with rfl | rfl | rfl | rfl
    · left
      simp only [HandlerId.run, handler]
      split
      · exact ⟨c, 200, _, rfl, rfl, rfl, rfl, Or.inl ⟨_, rfl⟩⟩
      · exact ⟨c, 200, _, rfl, rfl, rfl, rfl, Or.inl ⟨_, rfl⟩⟩
    · simp only [HandlerId.run, helloPathHandler]
      split
      · right; exact ⟨_, rfl⟩
      · left; exact ⟨c, 200, _, rfl, rfl, rfl, rfl, Or.inr ⟨_, _, rfl⟩⟩
    · simp only [HandlerId.run, userCreateHandler]
      split
      · right; exact ⟨_, rfl⟩
      · rename_i user _
        left
        exact ⟨c.log ("Received new user: Name=" ++ user.Name ++ ", Email=" ++ user.Email),
          201, .json user.toJSON, rfl, rfl, rfl, rfl, Or.inr ⟨201, user.toJSON, rfl⟩⟩
    · simp only [HandlerId.run, userModifyHandler]
      split
      · right; exact ⟨_, rfl⟩
      · rename_i user _
        left
        exact ⟨c.log ("Received new user: Name=" ++ user.Name ++ ", Email=" ++ user.Email),
          204, .json user.toJSON, rfl, rfl, rfl, rfl, Or.inr ⟨204, user.toJSON, rfl⟩⟩
  rcases key with ⟨c1, code, p, hreq, hpar, hresp, hrun, hcall⟩ | ⟨message, hrun⟩
  · have hw := write_call c1 code p
    rw [← hrun] at hw
    refine ⟨fun _ => ⟨c1, hreq, hpar, hresp, hcall⟩, fun e he => absurd he (hw.1 e),
      fun _ => ⟨?_, fun _ => ⟨hw.2.1, hw.2.2.2⟩, fun e he => absurd he (hw.1 e), ?_⟩⟩
    · rw [hw.2.2.2]; exact hw.2.1
    · rw [hw.2.2.2, ← hresp]
      rcases hw.2.2.1 with hb | hb <;> simp [hb]
  · refine ⟨fun hne => absurd (by rw [hrun]) (hne ⟨400, message⟩), fun e he => ?_,
      fun hfresh => ?_⟩
    · rw [hrun] at he ⊢
      simp only [Option.some.injEq, GoError.http.injEq] at he
      subst he
      exact ⟨rfl, rfl⟩
    · have h400 := handleResult_400 c message hfresh
      rw [hrun]
      refine ⟨h400.2.1, fun hne => absurd rfl (hne ⟨400, message⟩), fun e he => ?_, h400.2.2⟩
      simp only [Option.some.injEq, GoError.http.injEq] at he
      subst he
      exact h400.1

/-- Scenario F and the request `PUT /users/` with the user A, a@b.com, at the
handlers, as instances of `handlers_write_once`: `userCreateHandler` on a body
that does not decode writes nothing itself and the error handler writes the one
response; `userModifyHandler` on a body that binds commits the response itself
and the error handler adds nothing. -/
theorem handlers_write_once_witness :
    HandlerId.userCreateHandler ∈
      [HandlerId.handler, .helloPathHandler, .userCreateHandler, .userModifyHandler] ∧
    (NewContext reqCreateMalformed []).response.Committed = false ∧
    (HandlerId.userCreateHandler.run (NewContext reqCreateMalformed [])).1 =
      NewContext reqCreateMalformed [] ∧
    (handleResult (HandlerId.userCreateHandler.run
      (NewContext reqCreateMalformed []))).response.Committed = true ∧
    (handleResult (HandlerId.userCreateHandler.run
      (NewContext reqCreateMalformed []))).response.body.length ≤ 1 ∧
    HandlerId.userModifyHandler ∈
      [HandlerId.handler, .helloPathHandler, .userCreateHandler, .userModifyHandler] ∧
    (NewContext reqModify []).response.Committed = false ∧
    (handleResult (HandlerId.userModifyHandler.run (NewContext reqModify []))).response.Committed
      = true ∧
    handleResult (HandlerId.userModifyHandler.run (NewContext reqModify [])) =
      (HandlerId.userModifyHandler.run (NewContext reqModify [])).1 :=
  have h1 := handlers_write_once .userCreateHandler (by decide) (NewContext reqCreateMalformed [])
  have h2 := handlers_write_once .userModifyHandler (by decide) (NewContext reqModify [])
  ⟨by decide, rfl,
    (h1.2.1 ⟨400, "リクエストボディの形式が不正です。"⟩ rfl).1,
    (h1.2.2 rfl).1, (h1.2.2 rfl).2.2.2,
    by decide, rfl, (h2.2.2 rfl).1,
    ((h2.2.2 rfl).2.1 (fun e he => by
      have hrun : (HandlerId.userModifyHandler.run (NewContext reqModify [])).2 =
          some (.other "http: request method or response status code does not allow body") := by
        decide
      rw [hrun] at he
      cases he)).2⟩

/-- Claim C5.  For every request to `POST /users/` or `PUT /users/`, whatever its
body: `serverHeader` is in the chain that runs; the fresh response has no
`Server` header; the response at the end is committed and carries
`Server: Go/Echo Custom Server`, both when the handler succeeds (201 or 204) and
when it returns the error for a body that does not bind (400 with the fixed
message).  The header comes from the function `serverHeader` registers before it
calls `next`, the headers being untouched at that point, and a function
registered last has set its header whenever the header is then written. -/
theorem users_response_has_server_header (req : Request) (hpath : req.path = "/users/")
    (hmethod : req.method = .POST ∨ req.method = .PUT) :
    MiddlewareId.serverHeader ∈ main.chain req ∧
    (NewContext req (main.Find req.method req.path).params).response.header.Values "Server"
      = [] ∧
    (main.ServeHTTP req).response.Committed = true ∧
    (main.ServeHTTP req).response.header.Values "Server" = ["Go/Echo Custom Server"] ∧
    (∀ err, req.bind = .error err →
      (main.ServeHTTP req).response.Status = 400 ∧
      (main.ServeHTTP req).response.body =
        [.json [("message", "リクエストボディの形式が不正です。")]]) ∧
    (∀ user, req.bind = .ok user →
      (main.ServeHTTP req).response.Status = (if req.method = .POST then 201 else 204)) ∧
    (∀ (next : HandlerFunc) (c : Context), ∃ c1,
      serverHeader next c = next c1 ∧
      c1.response.beforeFuncs = c.response.beforeFuncs ++ [serverHook] ∧
      c1.response.header = c.response.header ∧
      c1.response.Committed = c.response.Committed) ∧
    (∀ (c : Context) (code : Nat) (fs : List BeforeFunc),
      c.response.Committed = false → c.response.beforeFuncs = fs ++ [serverHook] →
      (c.WriteHeader code).response.header.Values "Server" = ["Go/Echo Custom Server"]) := by
  have hd := users_dispatch req hpath hmethod
  refine ⟨?_, rfl, hd.1, hd.2.1, hd.2.2.1, fun user hu => (hd.2.2.2 user hu).1, ?_, ?_⟩
  · simp [Echo.chain, main_middleware]
  · intro next c
    refine Exists.intro
      (({ c with response := c.response.Before serverHook }).log "Request processed in %v") ?_
    exact ⟨rfl, rfl, rfl, rfl⟩
  · intro c code fs hfresh hfs
    rw [WriteHeader_fresh c code hfresh]
    simp only [hfs, runBefore_append]
    exact Values_Set _ _ _

/-- Scenarios E and F of the specification, as instances of
`users_response_has_server_header`. -/
theorem users_response_has_server_header_witness :
    (reqCreate.path = "/users/" ∧ (reqCreate.method = .POST ∨ reqCreate.method = .PUT) ∧
      (main.ServeHTTP reqCreate).response.header.Values "Server" = ["Go/Echo Custom Server"] ∧
      (main.ServeHTTP reqCreate).response.Status = 201) ∧
    (reqCreateMalformed.path = "/users/" ∧
      (reqCreateMalformed.method = .POST ∨ reqCreateMalformed.method = .PUT) ∧
      (main.ServeHTTP reqCreateMalformed).response.header.Values "Server" =
        ["Go/Echo Custom Server"] ∧
      (main.ServeHTTP reqCreateMalformed).response.Status = 400) :=
  have h1 := users_response_has_server_header reqCreate rfl (Or.inl rfl)
  have h2 := users_response_has_server_header reqCreateMalformed rfl (Or.inl rfl)
  ⟨⟨rfl, Or.inl rfl, h1.2.2.2.1, h1.2.2.2.2.2.1 ⟨"A", "a@b.com"⟩ rfl⟩,
   ⟨rfl, Or.inl rfl, h2.2.2.2.1, (h2.2.2.2.2.1 (.other "unexpected EOF") rfl).1⟩⟩

/-- Claim C6, evaluated at `GET /hello/` and `GET /hello/Taro`: `serverHeader` is
registered globally with `e.Use`, so it is in the chain that runs for both
requests, it runs there (its log line is written), and the responses carry
`Server: Go/Echo Custom Server`. -/
theorem hello_routes_run_serverHeader :
    MiddlewareId.serverHeader ∈ main.middleware ∧
    MiddlewareId.serverHeader ∈ main.chain reqHello ∧
    "Request processed in %v" ∈ (main.ServeHTTP reqHello).logs ∧
    (main.ServeHTTP reqHello).response.header.Values "Server" = ["Go/Echo Custom Server"] ∧
    MiddlewareId.serverHeader ∈ main.chain reqHelloTaro ∧
    "Request processed in %v" ∈ (main.ServeHTTP reqHelloTaro).logs ∧
    (main.ServeHTTP reqHelloTaro).response.header.Values "Server" =
      ["Go/Echo Custom Server"] := by
  decide

/-- Claim C7 as stated fails at `GET /hello`: the lookup for `/hello` does not
give the handler of `/hello/` but the not-found handler, and the request is
answered 404 with the message Not Found, while `GET /hello/` is answered 200. -/
theorem hello_without_slash_is_not_found :
    ¬ ((main.Find .GET "/hello").handler = (main.Find .GET "/hello/").handler) ∧
    (main.Find .GET "/hello").handler = .NotFoundHandler ∧
    (main.ServeHTTP reqHelloNoSlash).response.Status = 404 ∧
    (main.ServeHTTP reqHelloNoSlash).response.body = [.json [("message", "Not Found")]] ∧
    (main.ServeHTTP reqHello).response.Status = 200 ∧
    (main.ServeHTTP reqHello).response.body = [.text "Hello, echo api server!"] := by
  decide

/-- Claim C7, amended.  The GET patterns `main` registers are `/hello/` and
`/hello/:name`.  For every query string, `GET /hello/` resolves to `handler` and
is answered 200 with the greeting text, and `GET /hello` resolves to no route:
it gets the not-found handler and is answered 404 with the message Not Found. -/
theorem hello_slash_only (q : List (String × String)) (b : Except GoError User) :
    (main.routes.filter (fun r => r.Method = .GET)).map Route.Path =
      ["/hello/", "/hello/:name"] ∧
    (main.Find .GET "/hello/").handler = .handler ∧
    (main.ServeHTTP ⟨.GET, "/hello/", q, b⟩).response.Status = 200 ∧
    (main.ServeHTTP ⟨.GET, "/hello/", q, b⟩).response.body =
      [.text (if (NewContext ⟨.GET, "/hello/", q, b⟩ []).QueryParam "name" = ""
        then "Hello, echo api server!"
        else "Hello, " ++ (NewContext ⟨.GET, "/hello/", q, b⟩ []).QueryParam "name")] ∧
    (main.Find .GET "/hello").handler = .NotFoundHandler ∧
    (main.ServeHTTP ⟨.GET, "/hello", q, b⟩).response.Status = 404 ∧
    (main.ServeHTTP ⟨.GET, "/hello", q, b⟩).response.body = [.json [("message", "Not Found")]] := by
  refine ⟨by decide, by decide, ?_, ?_, by decide, ?_, ?_⟩
  · by_cases hq : (NewContext ⟨.GET, "/hello/", q, b⟩ []).QueryParam "name" = "" <;>
    simp_all [Echo.ServeHTTP, Find_hello_slash, main_middleware, applyMiddleware,
      MiddlewareId.run, HandlerId.run, Logger, Recover, serverHeader, handler, handleResult,
      NewContext, Context.QueryParam, Context.log, Response.Before, Context.String,
      Context.WriteHeader, Context.Write, bodyAllowedForStatus]
  · by_cases hq : (NewContext ⟨.GET, "/hello/", q, b⟩ []).QueryParam "name" = "" <;>
    simp_all [Echo.ServeHTTP, Find_hello_slash, main_middleware, applyMiddleware,
      MiddlewareId.run, HandlerId.run, Logger, Recover, serverHeader, handler, handleResult,
      NewContext, Context.QueryParam, Context.log, Response.Before, Context.String,
      Context.WriteHeader, Context.Write, bodyAllowedForStatus]
  · simp [Echo.ServeHTTP, Find_hello_no_slash, main_middleware, applyMiddleware,
      MiddlewareId.run, HandlerId.run, Logger, Recover, serverHeader, handleResult,
      DefaultHTTPErrorHandler, ErrNotFound, NewHTTPError, NewContext, Context.log,
      Response.Before, Context.JSON, Context.WriteHeader, Context.Write, bodyAllowedForStatus]
  · simp [Echo.ServeHTTP, Find_hello_no_slash, main_middleware, applyMiddleware,
      MiddlewareId.run, HandlerId.run, Logger, Recover, serverHeader, handleResult,
      DefaultHTTPErrorHandler, ErrNotFound, NewHTTPError, NewContext, Context.log,
      Response.Before, Context.JSON, Context.WriteHeader, Context.Write, bodyAllowedForStatus]

/-! ## Registering `serverHeader` twice -/

theorem SameOutcome.log {c1 c2 : Context} (h : SameOutcome c1 c2) (l1 l2 : String) :
    SameOutcome (c1.log l1) (c2.log l2) := h

theorem SameOutcome.WriteHeader {c1 c2 : Context} (h : SameOutcome c1 c2) (code : Nat) :
    SameOutcome (c1.WriteHeader code) (c2.WriteHeader code) := by
  obtain ⟨hreq, hpar, hhdr, hst, hcom, hbody, hfun⟩ := h
  unfold Context.WriteHeader
  rw [hcom]
  split
  · exact ⟨hreq, hpar, hhdr, hst, hcom, hbody, hfun⟩
  · exact ⟨hreq, hpar, by simp [hhdr, hfun], rfl, rfl, hbody, hfun⟩

theorem SameOutcome.Write {c1 c2 : Context} (h : SameOutcome c1 c2) (p : Payload) :
    (c1.Write p).2 = (c2.Write p).2 ∧ SameOutcome (c1.Write p).1 (c2.Write p).1 := by
  obtain ⟨hreq, hpar, hhdr, hst, hcom, hbody, hfun⟩ := h
  unfold Context.Write
  rw [hst]
  split
  · exact ⟨rfl, hreq, hpar, hhdr, hst, hcom, by simp [hbody], hfun⟩
  · exact ⟨rfl, hreq, hpar, hhdr, hst, hcom, hbody, hfun⟩

theorem SameOutcome.JSON {c1 c2 : Context} (h : SameOutcome c1 c2) (code : Nat)
    (members : List (String × String)) :
    (c1.JSON code members).2 = (c2.JSON code members).2 ∧
    SameOutcome (c1.JSON code members).1 (c2.JSON code members).1 :=
  (h.WriteHeader code).Write _

theorem SameOutcome.String {c1 c2 : Context} (h : SameOutcome c1 c2) (code : Nat)
    (s : String) :
    (c1.String code s).2 = (c2.String code s).2 ∧
    SameOutcome (c1.String code s).1 (c2.String code s).1 :=
  (h.WriteHeader code).Write _

/-- Each of the four handlers of `main.go` treats contexts that look the same
alike. -/
theorem handlers_respect :
    Respects handler ∧ Respects helloPathHandler ∧
    Respects userCreateHandler ∧ Respects userModifyHandler := by
  refine ⟨?_, ?_, ?_, ?_⟩
  · intro c1 c2 h
    have hq : c1.QueryParam "name" = c2.QueryParam "name" := by
      simp [Context.QueryParam, h.1]
    simp only [handler, hq]
    split
    · exact h.String _ _
    · exact h.String _ _
  · intro c1 c2 h
    have hp : c1.Param "name" = c2.Param "name" := by
      simp [Context.Param, h.2.1]
    simp only [helloPathHandler, hp]
    split
    · exact ⟨rfl, h⟩
    · exact h.JSON _ _
  · intro c1 c2 h
    have hb : c1.Bind = c2.Bind := by simp [Context.Bind, h.1]
    simp only [userCreateHandler, hb]
    split
    · exact ⟨rfl, h⟩
    · exact (h.log _ _).JSON _ _
  · intro c1 c2 h
    have hb : c1.Bind = c2.Bind := by simp [Context.Bind, h.1]
    simp only [userModifyHandler, hb]
    split
    · exact ⟨rfl, h⟩
    · exact (h.log _ _).JSON _ _

/-- Claim C10.  In `main` every route under `/users/` has `serverHeader` twice in
its chain, once from `e.Use` and once from the group.  For every inner handler
that treats contexts that look the same alike, and every context:
`serverHeader (serverHeader next)` is one call of `next`, on a context with the
header-setting function registered twice; it returns the error
`serverHeader next` returns and leaves a context that looks the same; two runs
of the registered function leave the headers as one run does, with the single
`Server` value Go/Echo Custom Server; and the response at the end of a request
to `POST /users/` or `PUT /users/` has exactly that one value. -/
theorem serverHeader_twice_as_once (next : HandlerFunc) (hnext : Respects next) (c : Context) :
    (∀ r ∈ main.routes, r.Path = "/users/" →
      (main.middleware ++ r.middleware).count .serverHeader = 2) ∧
    (∃ c2, serverHeader (serverHeader next) c = next c2 ∧
      c2.response.beforeFuncs = c.response.beforeFuncs ++ [serverHook, serverHook]) ∧
    (serverHeader (serverHeader next) c).2 = (serverHeader next c).2 ∧
    SameOutcome (serverHeader (serverHeader next) c).1 (serverHeader next c).1 ∧
    (∀ h, runBefore [serverHook, serverHook] h = runBefore [serverHook] h ∧
      (runBefore [serverHook, serverHook] h).Values "Server" = ["Go/Echo Custom Server"]) ∧
    (∀ req : Request, req.path = "/users/" → (req.method = .POST ∨ req.method = .PUT) →
      (main.ServeHTTP req).response.header.Values "Server" = ["Go/Echo Custom Server"]) := by
  have hsame : SameOutcome
      ((({ (({ c with response := c.response.Before serverHook }).log
        "Request processed in %v") with
          response := (({ c with response := c.response.Before serverHook }).log
            "Request processed in %v").response.Before serverHook }).log
              "Request processed in %v"))
      (({ c with response := c.response.Before serverHook }).log "Request processed in %v") := by
    refine ⟨rfl, rfl, rfl, rfl, rfl, rfl, fun h => ?_⟩
    simp [Context.log, Response.Before, runBefore_append, runBefore, Set_Set]
  refine ⟨?_, ?_, (hnext _ _ hsame).1, (hnext _ _ hsame).2, ?_, ?_⟩
  · rw [main_routes, main_middleware]
    decide
  · refine Exists.intro _ ⟨rfl, ?_⟩
    simp [Context.log, Response.Before]
  · intro h
    refine ⟨runBefore_hook_twice h, ?_⟩
    simp [runBefore, serverHook, Values_Set]
  · intro req hpath hmethod
    exact (users_dispatch req hpath hmethod).2.1

/-- Scenario E of the specification, as an instance of
`serverHeader_twice_as_once`: `userCreateHandler` wrapped twice and once on the
fresh context of `POST /users/`. -/
theorem serverHeader_twice_as_once_witness :
    Respects userCreateHandler ∧
    (serverHeader (serverHeader userCreateHandler) (NewContext reqCreate [])).2 =
      (serverHeader userCreateHandler (NewContext reqCreate [])).2 ∧
    (serverHeader (serverHeader userCreateHandler) (NewContext reqCreate [])).1.response.header
      = (serverHeader userCreateHandler (NewContext reqCreate [])).1.response.header ∧
    (serverHeader (serverHeader userCreateHandler) (NewContext reqCreate
      [])).1.response.header.Values "Server" = ["Go/Echo Custom Server"] :=
  have h := serverHeader_twice_as_once userCreateHandler handlers_respect.2.2.1
    (NewContext reqCreate [])
  ⟨handlers_respect.2.2.1, h.2.2.1, h.2.2.2.1.2.2.1, by decide⟩

end GoEcho
